import Mathlib

/-!
Verification of the page-table extractor / paginator of
`matheuslemesUFOP/crawler_python` (file `src/crawler/crawler.py`).

Shallow embedding notes.

* An HTML snapshot is modelled after it has been parsed by
  `BeautifulSoup(html, "html.parser")`: as a tree of element and text
  nodes (`Node`).  The raw-text-to-tree step is the external library and
  is not modelled; every claim about "a snapshot string" is read over the
  parsed tree the code actually traverses.
* BeautifulSoup search semantics are modelled faithfully for the calls
  the code makes: `find`/`find_all` search the *descendants* of a node in
  document order; a `class_` string filter matches when it equals one
  class token or the whitespace-normalised joined class string; a
  `class_` callable filter is applied to each token and to the joined
  string (`None` for a missing attribute); `attrs={k: True}` requires the
  attribute to be present; `get_text(strip=True)` joins the stripped
  non-empty text fragments of the subtree.
* Python `int(s)` / `float(s)` on strings are modelled for ASCII inputs:
  surrounding whitespace is stripped, an optional sign is read, digit
  runs may contain single interior underscores; `float` additionally
  accepts a decimal point, an exponent and (case-insensitively)
  `inf`/`infinity`/`nan`.  Numeric values are exact rationals; IEEE-754
  rounding is not modelled (every literal appearing in the claims is
  exactly representable).
* Python exceptions that the code can actually raise in the modelled
  region (the `IndexError` of `cells[i]`) are modelled with `Except`;
  the `while True:` loop of `Crawler.extract` is modelled by a
  fuel-indexed iteration whose fuel is proved sufficient, so running out
  of fuel (`PyErr.fuelOut`) is proved unreachable.
-/

/-! ### String primitives

Structurally recursive character-list implementations of the Python /
BeautifulSoup string operations the code uses (`str.strip`,
`str.split(sep)`, whitespace tokenisation, `x in y`, comma removal), so
that every concrete claim instance evaluates inside the kernel. -/

/-- ASCII whitespace as stripped by Python `str.strip()`. -/
def isPySpace (c : Char) : Bool :=
  c = ' ' || c = '\t' || c = '\n' || c = '\r' || c = '\x0b' || c = '\x0c'

/-- Strip leading and trailing whitespace from a character list. -/
def trimChars (cs : List Char) : List Char :=
  ((cs.dropWhile isPySpace).reverse.dropWhile isPySpace).reverse

/-- Python `s.strip()` (ASCII model). -/
def pyStrip (s : String) : String :=
  (trimChars s.toList).asString

/-- When `pat` is a leading run of `cs`, the remainder of `cs` after it. -/
def sepHead? : List Char → List Char → Option (List Char)
  | [], rest => some rest
  | _ :: _, [] => none
  | p :: ps, c :: rest => if c = p then sepHead? ps rest else none

/-- Python `pat in s` on character lists: `pat` occurs somewhere in
`cs` (the empty pattern always occurs). -/
def containsSub (pat : List Char) : List Char → Bool
  | [] => (sepHead? pat []).isSome
  | c :: cs => (sepHead? pat (c :: cs)).isSome || containsSub pat cs

/-- Python `x in y` on strings (substring test). -/
def strContains (s pat : String) : Bool :=
  containsSub pat.toList s.toList

/-- Fuelled leftmost non-overlapping split on a separator; `fuel`
exceeding the list length makes it total in the kernel. -/
def splitOnFuel (sep : List Char) : Nat → List Char → List (List Char)
  | 0, cs => [cs]
  | fuel + 1, cs =>
    match sepHead? sep cs with
    | some rest => [] :: splitOnFuel sep fuel rest
    | none =>
      match cs with
      | [] => [[]]
      | c :: cs2 =>
        match splitOnFuel sep fuel cs2 with
        | [] => [[c]]
        | chunk :: chunks => (c :: chunk) :: chunks

/-- Python `s.split(sep)` for a nonempty separator. -/
def pySplit (s sep : String) : List String :=
  (splitOnFuel sep.toList (s.length + 1) s.toList).map List.asString

/-- Split a character list at every character satisfying `p` (chunks
may be empty). -/
def splitCh (p : Char → Bool) : List Char → List (List Char)
  | [] => [[]]
  | c :: cs =>
    if p c then [] :: splitCh p cs
    else
      match splitCh p cs with
      | [] => [[c]]
      | chunk :: chunks => (c :: chunk) :: chunks

/-- `str.replace(",", "")`: remove every comma. -/
def removeCommas (s : String) : String :=
  (s.toList.filter (fun c => c != ',')).asString

/-- A node of the parsed HTML tree: an element with a tag name, an
attribute list and children, or a bare text node. -/
inductive Node where
  | elem (tag : String) (attrs : List (String × String)) (children : List Node)
  | text (s : String)

namespace Node

/-- Attribute lookup (`tag.get(key)`): first binding wins, `None` when
absent or on a text node. -/
def getAttr : Node → String → Option String
  | .text _, _ => none
  | .elem _ attrs _, key =>
    match attrs.find? (fun p => p.1 == key) with
    | some p => some p.2
    | none => none

/-- The `class` attribute of a node, when present. -/
def classAttr (n : Node) : Option String :=
  n.getAttr "class"

/-- Is this an element node with the given tag name? -/
def isTag : Node → String → Bool
  | .text _, _ => false
  | .elem t _ _, name => t == name

mutual
/-- All descendants of a node in document order (the node itself
excluded), as traversed by BeautifulSoup `find`/`find_all`. -/
def descendants : Node → List Node
  | .text _ => []
  | .elem _ _ cs => descList cs

/-- Document-order descendants of a forest: each root followed by its
own descendants. -/
def descList : List Node → List Node
  | [] => []
  | c :: cs => c :: descendants c ++ descList cs
end

mutual
/-- The text fragments of a subtree in document order (the
`NavigableString`s BeautifulSoup iterates for `get_text`). -/
def strings : Node → List String
  | .text s => [s]
  | .elem _ _ cs => stringsList cs

/-- Text fragments of a forest in document order. -/
def stringsList : List Node → List String
  | [] => []
  | c :: cs => strings c ++ stringsList cs
end

/-- `tag.get_text(strip=True)`: strip each text fragment, drop the ones
that become empty, concatenate the rest. -/
def getTextStrip (n : Node) : String :=
  String.join (((strings n).map pyStrip).filter (fun s => s != ""))

end Node

/-- `find_all(pred)` over a node: the descendants satisfying the filter,
in document order. -/
def findAll (p : Node → Bool) (n : Node) : List Node :=
  (Node.descendants n).filter p

/-- `find(pred)` over a node: the first descendant satisfying the
filter, if any. -/
def findFirst (p : Node → Bool) (n : Node) : Option Node :=
  (findAll p n).head?

/-- The class tokens of a `class` attribute value (BeautifulSoup splits
the multi-valued attribute on whitespace). -/
def classTokens (s : String) : List String :=
  ((splitCh isPySpace s.toList).map List.asString).filter (fun t => t != "")

/-- The whitespace-normalised joined class string BeautifulSoup also
matches `class_` filters against. -/
def classJoined (s : String) : String :=
  " ".intercalate (classTokens s)

/-- A `class_="pat"` string filter: true when some class token equals
`pat` or the joined class string equals `pat`; a missing class attribute
never matches. -/
def classStrMatch (pat : String) : Option String → Bool
  | none => false
  | some s => (classTokens s).any (fun t => t == pat) || classJoined s == pat

/-- A `class_=lambda c: ...` callable filter: applied to every class
token and to the joined class string; applied to `None` (here `none`)
when the attribute is missing. -/
def classFunMatch (p : Option String → Bool) : Option String → Bool
  | none => p none
  | some s => (classTokens s).any (fun t => p (some t)) || p (some (classJoined s))

/-! ### Python numeric-string parsing (ASCII model) -/

/-- Value of a digit list, most significant first. -/
def digitsToNat (ds : List Char) : Nat :=
  ds.foldl (fun a c => a * 10 + (c.toNat - '0'.toNat)) 0

/-- Continuation of a Python digit run after its first digit: digits,
with single underscores allowed only between digits.  Returns the
digits with underscores removed. -/
def digitRunRest : List Char → Option (List Char)
  | [] => some []
  | '_' :: c :: cs =>
    if c.isDigit then (digitRunRest cs).map (fun ds => c :: ds) else none
  | ['_'] => none
  | c :: cs =>
    if c.isDigit then (digitRunRest cs).map (fun ds => c :: ds) else none

/-- A Python `digitpart`: nonempty, starts and ends with a digit, single
underscores allowed between digits.  Returns the digits. -/
def digitRun? : List Char → Option (List Char)
  | [] => none
  | c :: cs =>
    if c.isDigit then (digitRunRest cs).map (fun ds => c :: ds) else none

/-- Body of Python `int(s)` after whitespace stripping: optional sign,
then a digit run. -/
def pyIntCore : List Char → Option Int
  | [] => none
  | c :: cs =>
    if c = '+' then (digitRun? cs).map (fun ds => (digitsToNat ds : Int))
    else if c = '-' then (digitRun? cs).map (fun ds => -(digitsToNat ds : Int))
    else (digitRun? (c :: cs)).map (fun ds => (digitsToNat ds : Int))

/-- Python `int(s)` on a string (base 10, ASCII model). -/
def pyInt (s : String) : Option Int :=
  pyIntCore (trimChars s.toList)

/-- Split a character list at the first character satisfying `p`:
the part before it and, when found, the part after it. -/
def splitAtFirst (p : Char → Bool) : List Char → List Char × Option (List Char)
  | [] => ([], none)
  | c :: cs =>
    if p c then ([], some cs)
    else
      let r := splitAtFirst p cs
      (c :: r.1, r.2)

/-- Mantissa of a Python float literal (no sign, no exponent): value of
the read digits and the number of fractional digits. -/
def mantissaVal? (cs : List Char) : Option (Nat × Nat) :=
  let r := splitAtFirst (fun c => c == '.') cs
  match r.2 with
  | none => (digitRun? r.1).map (fun ds => (digitsToNat ds, 0))
  | some fp =>
    match r.1, fp with
    | [], [] => none
    | [], _ => (digitRun? fp).map (fun ds => (digitsToNat ds, ds.length))
    | ip, [] => (digitRun? ip).map (fun ds => (digitsToNat ds, 0))
    | ip, _ =>
      match digitRun? ip, digitRun? fp with
      | some ids, some fds => some (digitsToNat (ids ++ fds), fds.length)
      | _, _ => none

/-- Result of Python `float(s)`: a finite value (exact rational model),
an infinity, or NaN. -/
inductive PyFloat where
  | finite (q : ℚ)
  | inf
  | ninf
  | nan
deriving Repr, DecidableEq

/-- Exact value of a float literal with mantissa digits worth `m`, `f`
fractional digits and decimal exponent `e`: the rational
`m * 10 ^ (e - f)`. -/
def sciVal (m f : Nat) (e : Int) : ℚ :=
  if (f : Int) ≤ e then mkRat ((m : Int) * 10 ^ (e - (f : Int)).toNat) 1
  else mkRat (m : Int) (10 ^ (((f : Int) - e).toNat))

/-- Numeric (non-special) float literal body: mantissa with optional
`e`/`E` exponent. -/
def pyNum? (cs : List Char) : Option ℚ :=
  let r := splitAtFirst (fun c => c == 'e' || c == 'E') cs
  match r.2 with
  | none => (mantissaVal? r.1).map (fun m => sciVal m.1 m.2 0)
  | some ecs =>
    match mantissaVal? r.1, pyIntCore ecs with
    | some m, some e => some (sciVal m.1 m.2 e)
    | _, _ => none

/-- Float literal body after the sign: special spellings or a numeric
literal. -/
def pyFloatBody (neg : Bool) (cs : List Char) : Option PyFloat :=
  let low := (cs.map Char.toLower).asString
  if low = "inf" ∨ low = "infinity" then
    some (if neg then PyFloat.ninf else PyFloat.inf)
  else if low = "nan" then some PyFloat.nan
  else (pyNum? cs).map (fun q => PyFloat.finite (if neg then -q else q))

/-- Python `float(s)` on a string (ASCII model, exact values). -/
def pyFloat? (s : String) : Option PyFloat :=
  match trimChars s.toList with
  | '+' :: rest => pyFloatBody false rest
  | '-' :: rest => pyFloatBody true rest
  | cs => pyFloatBody false cs

/-! ### The crawler's pure extraction functions (`src/crawler/crawler.py`) -/

namespace Crawler

/-- `Crawler._parse_price`: empty string gives `0.0`; otherwise remove
all commas and `float(...)`, with `0.0` on `ValueError`. -/
def _parse_price (price_str : String) : PyFloat :=
  if price_str = "" then PyFloat.finite 0
  else
    match pyFloat? (removeCommas price_str) with
    | some v => v
    | none => PyFloat.finite 0

/-- Filter of `soup.find_all("div", class_="screener-table yf-hm80y7")`. -/
def isScreenerDiv (n : Node) : Bool :=
  n.isTag "div" && classStrMatch "screener-table yf-hm80y7" n.classAttr

/-- Filter of `.find("table", class_="yf-1uayyp1 bd")`. -/
def isBdTable (n : Node) : Bool :=
  n.isTag "table" && classStrMatch "yf-1uayyp1 bd" n.classAttr

/-- Filter of `.find("tbody")`. -/
def isTbody (n : Node) : Bool :=
  n.isTag "tbody"

/-- Filter of `.find_all("tr")`. -/
def isTr (n : Node) : Bool :=
  n.isTag "tr"

/-- `Crawler._get_table_rows`: `div.screener-table`, then its `table`,
then its `tbody`, then the `tr` rows; empty list when any level is
missing. -/
def _get_table_rows (doc : Node) : List Node :=
  match (findAll isScreenerDiv doc).head? with
  | none => []
  | some d =>
    match findFirst isBdTable d with
    | none => []
    | some t =>
      match findFirst isTbody t with
      | none => []
      | some tb => findAll isTr tb

/-- Filter of `soup.find("div", class_="total yf-c259ju")`. -/
def isTotalDiv (n : Node) : Bool :=
  n.isTag "div" && classStrMatch "total yf-c259ju" n.classAttr

/-- The string `Crawler._get_total_rows` hands to `int(...)` when the
badge is present and its text contains `" of "`: the trimmed last
`" of "`-separated chunk.  (`""` when the badge is missing.) -/
def totalNumStr (doc : Node) : String :=
  match findFirst isTotalDiv doc with
  | none => ""
  | some d => pyStrip ((pySplit d.getTextStrip " of ").getLastD "")

/-- `Crawler._get_total_rows`: parse the total off the `"1-25 of 1067"`
badge; `0` when the badge is missing, has no `" of "`, or the final
chunk is not an `int`. -/
def _get_total_rows (doc : Node) : Int :=
  match findFirst isTotalDiv doc with
  | none => 0
  | some d =>
    let text := d.getTextStrip
    if strContains text " of " then
      match pyInt (pyStrip ((pySplit text " of ").getLastD "")) with
      | some k => k
      | none => 0
    else 0

/-- The callable `class_` filter of the page-size button lookup:
`lambda c: c and "menuBtn" in (c or "") and "rightAlign" in (c or "")`. -/
def menuBtnClass : Option String → Bool
  | none => false
  | some c => c != "" && strContains c "menuBtn" && strContains c "rightAlign"

/-- Filter of the primary page-size button lookup. -/
def isMenuBtn (n : Node) : Bool :=
  n.isTag "button" && classFunMatch menuBtnClass n.classAttr

/-- Filter of the fallback lookup
`soup.find("button", attrs={"aria-label": True, "title": True})`. -/
def isLabeledBtn (n : Node) : Bool :=
  n.isTag "button" && (n.getAttr "aria-label").isSome && (n.getAttr "title").isSome

/-- The button `Crawler._get_rows_per_page` reads, when one exists:
first a `menuBtn`+`rightAlign` button, else any button carrying both
`aria-label` and `title`. -/
def rppBtn? (doc : Node) : Option Node :=
  match findFirst isMenuBtn doc with
  | some b => some b
  | none => findFirst isLabeledBtn doc

/-- One `val = btn.get(attr); if val: try: return int(str(val).strip())`
attempt: `none` when the attribute is absent, empty, or not an `int`. -/
def attrCand (b : Node) (a : String) : Option Int :=
  match b.getAttr a with
  | none => none
  | some v => if v = "" then none else pyInt v

/-- The callable `class_` filter of the span fallback:
`lambda c: c and "textSelect" in (c or "")`. -/
def textSelectClass : Option String → Bool
  | none => false
  | some c => c != "" && strContains c "textSelect"

/-- Filter of `btn.find("span", class_=...)`. -/
def isTextSelectSpan (n : Node) : Bool :=
  n.isTag "span" && classFunMatch textSelectClass n.classAttr

/-- The `int(span.get_text(strip=True))` fallback of
`Crawler._get_rows_per_page`. -/
def spanCand (b : Node) : Option Int :=
  match findFirst isTextSelectSpan b with
  | none => none
  | some sp => pyInt sp.getTextStrip

/-- `Crawler._get_rows_per_page`: read the page size off the menu
button's `aria-label`, then `title`, then its `textSelect` span; `0`
when the button is missing or nothing parses. -/
def _get_rows_per_page (doc : Node) : Int :=
  match rppBtn? doc with
  | none => 0
  | some b =>
    match attrCand b "aria-label" with
    | some k => k
    | none =>
      match attrCand b "title" with
      | some k => k
      | none =>
        match spanCand b with
        | some k => k
        | none => 0

/-- `Crawler.is_last_page`: `rows_per_page <= 0` is defensively last;
otherwise `(page + 1) * rows_per_page >= total_rows`. -/
def is_last_page (page total_rows rows_per_page : Int) : Bool :=
  if rows_per_page ≤ 0 then true
  else (page + 1) * rows_per_page ≥ total_rows

end Crawler

/-- One extracted row: the dict
`{"symbol": ..., "name": ..., "price": ...}`. -/
structure Record where
  symbol : String
  name : String
  price : PyFloat
deriving Repr, DecidableEq

/-- Python-level failures of the modelled region: the `IndexError` of
`cells[i]` on a short row, and exhaustion of the loop fuel (proved
unreachable). -/
inductive PyErr where
  | indexError
  | fuelOut
deriving Repr, DecidableEq

namespace Crawler

/-- The body of `extract`'s row loop (lines 431-437): `tr.find_all("td")`
then unguarded `cells[1]`, `cells[2]`, `cells[4]` — an `IndexError` when
the row has fewer than 5 cells. -/
def rowRecord (tr : Node) : Except PyErr Record :=
  let cells := findAll (fun n => n.isTag "td") tr
  match cells.get? 1 with
  | none => .error .indexError
  | some c1 =>
    match cells.get? 2 with
    | none => .error .indexError
    | some c2 =>
      match cells.get? 4 with
      | none => .error .indexError
      | some c4 =>
        .ok { symbol := c1.getTextStrip, name := c2.getTextStrip,
              price := _parse_price c4.getTextStrip }

/-- The `for tr_html in rows_html:` loop over one page: the records in
row order, or the first row's `IndexError`. -/
def rowRecords : List Node → Except PyErr (List Record)
  | [] => .ok []
  | tr :: trs =>
    match rowRecord tr with
    | .error e => .error e
    | .ok r =>
      match rowRecords trs with
      | .error e => .error e
      | .ok rs => .ok (r :: rs)

/-- The `if not rows_per_page: rows_per_page = len(rows_html)` fallback
of each iteration of `extract`'s loop: the page size actually used on
page `page` when the carried value is `rpp`. -/
def stepRpp (snaps : Nat → Node) (rpp : Int) (page : Nat) : Int :=
  if rpp = 0 then ((_get_table_rows (snaps page)).length : Int) else rpp

/-- The `while True:` loop of `extract` (lines 425-442), fuel-indexed.
`snaps i` is the page source after `i` next-page clicks; the loop
returns the accumulated records and the final `page` counter.  One fuel
unit is one loop iteration, i.e. one consumed snapshot (a "fetch
cycle").  Fuel exhaustion is `PyErr.fuelOut` and is proved unreachable
from `extract`'s entry state. -/
def extractGo (snaps : Nat → Node) (total : Int) :
    Int → List Record → Nat → Nat → Except PyErr (List Record × Nat)
  | _, _, _, 0 => .error .fuelOut
  | rpp, acc, page, fuel + 1 =>
    if stepRpp snaps rpp page = 0 then .ok (acc, page)
    else
      match rowRecords (_get_table_rows (snaps page)) with
      | .error e => .error e
      | .ok recs =>
        if is_last_page (page : Int) total (stepRpp snaps rpp page) then
          .ok (acc ++ recs, page)
        else extractGo snaps total (stepRpp snaps rpp page) (acc ++ recs) (page + 1) fuel

/-- `extract`'s loop entered from its initial state with a given fuel:
total and page size parsed from the first snapshot, empty accumulator,
page 0. -/
def extractWith (url region : String) (snaps : Nat → Node) (fuel : Nat) :
    Except PyErr (List Record × Nat) :=
  extractGo snaps (_get_total_rows (snaps 0)) (_get_rows_per_page (snaps 0)) [] 0 fuel

/-- Fuel sufficient for every snapshot sequence (proved below):
`|total| + 2` loop iterations. -/
def extractFuel (snaps : Nat → Node) : Nat :=
  (_get_total_rows (snaps 0)).natAbs + 2

/-- `Crawler.extract(url, region)` restricted to the modelled core: the
pagination/extraction loop over the parsed snapshots.  `url` and
`region` only drive the external browser collaborator; the loop itself
never reads them. -/
def extract (url region : String) (snaps : Nat → Node) :
    Except PyErr (List Record × Nat) :=
  extractWith url region snaps (extractFuel snaps)

end Crawler

/-! ### Concrete snapshots used by the claims -/

/-- A `<td>` cell holding one text fragment. -/
def tdCell (s : String) : Node :=
  Node.elem "td" [] [Node.text s]

/-- A five-cell data row: row index, symbol, name, spacer, price. -/
def dataRow (idx sym nm price : String) : Node :=
  Node.elem "tr" [] [tdCell idx, tdCell sym, tdCell nm, tdCell "x", tdCell price]

/-- A data row with only two cells (fewer than the five the row loop
indexes into). -/
def shortRow : Node :=
  Node.elem "tr" [] [tdCell "a", tdCell "b"]

/-- The `"<start>-<end> of <total>"` badge div. -/
def totalBadge (s : String) : Node :=
  Node.elem "div" [("class", "total yf-c259ju")] [Node.text s]

/-- The page-size menu button, labelled with the page size. -/
def sizeBtn (s : String) : Node :=
  Node.elem "button" [("class", "menuBtn rightAlign"), ("aria-label", s), ("title", s)] []

/-- The screener table container holding the badge and the data rows. -/
def screenerDiv (total : String) (rows : List Node) : Node :=
  Node.elem "div" [("class", "screener-table yf-hm80y7")]
    [totalBadge total,
     Node.elem "table" [("class", "yf-1uayyp1 bd")] [Node.elem "tbody" [] rows]]

/-- A full screener page with a page-size button. -/
def pageDoc (total sizeLabel : String) (rows : List Node) : Node :=
  Node.elem "[document]" [] [screenerDiv total rows, sizeBtn sizeLabel]

/-- A screener page without any page-size button (the unit-test
fixture's shape). -/
def pageDocNoBtn (total : String) (rows : List Node) : Node :=
  Node.elem "[document]" [] [screenerDiv total rows]

/-- A snapshot carrying only the badge, no table. -/
def badgeOnlyDoc (s : String) : Node :=
  Node.elem "[document]" [] [totalBadge s]

/-- A snapshot carrying only a page-size button. -/
def btnOnlyDoc (s : String) : Node :=
  Node.elem "[document]" [] [sizeBtn s]

/-- An empty page: no badge, no button, no table. -/
def emptyDoc : Node :=
  Node.elem "html" [] [Node.elem "body" [] []]

/-- The rows of page `page` of the 70-item listing: 25 items per page,
symbols `S<k>`, names `N<k>`, price text `<k>`. -/
def rowsFor (page cnt : Nat) : List Node :=
  (List.range cnt).map (fun j =>
    dataRow (toString j) ("S" ++ toString (page * 25 + j))
      ("N" ++ toString (page * 25 + j)) (toString (page * 25 + j)))

/-- Three snapshots of a 70-item, 25-per-page listing (pages 0-2). -/
def snaps70 : Nat → Node := fun i =>
  if i = 0 then pageDoc "1-25 of 70" "25" (rowsFor 0 25)
  else if i = 1 then pageDoc "26-50 of 70" "25" (rowsFor 1 25)
  else pageDoc "51-70 of 70" "25" (rowsFor 2 20)

/-- The 70 records of the listing, in page order then row order. -/
def records70 : List Record :=
  (List.range 70).map (fun k =>
    { symbol := "S" ++ toString k, name := "N" ++ toString k,
      price := PyFloat.finite (k : ℚ) })

/-- A single-page snapshot (badge says 3 of 3) whose middle row has
fewer than five cells. -/
def docShortRow : Node :=
  pageDoc "1-3 of 3" "25"
    [dataRow "0" "AAPL" "Apple Inc" "150.25", shortRow,
     dataRow "2" "GOOG" "Alphabet" "140.50"]

/-- The unit-test fixture page: one page of three rows, total badge
`"1-3 of 3"`, no page-size button. -/
def docSingle : Node :=
  pageDocNoBtn "1-3 of 3"
    [dataRow "0" "A" "Name A" "10.0", dataRow "1" "B" "Name B" "20.0",
     dataRow "2" "C" "Name C" "30.0"]

/-! ### Spec-side auxiliary definitions for the theorems -/

/-- The per-page record lists of `count` consecutive snapshots starting
at page `start`, each parsed by the row loop: the page-order sequence
whose flattening `extract` is claimed to return. -/
def pageRecordsSeq (snaps : Nat → Node) : Nat → Nat → Except PyErr (List (List Record))
  | _, 0 => .ok []
  | start, count + 1 =>
    match Crawler.rowRecords (Crawler._get_table_rows (snaps start)) with
    | .error e => .error e
    | .ok l =>
      match pageRecordsSeq snaps (start + 1) count with
      | .error e => .error e
      | .ok ls => .ok (l :: ls)

/-- A string whose stripped form does not begin with a minus sign, so
Python `int(...)` cannot produce a negative value from it. -/
def noMinus (s : String) : Bool :=
  (trimChars s.toList).head? != some '-'

/-- The strings `Crawler._get_rows_per_page` may hand to `int(...)` on a
given snapshot: the button's `aria-label` and `title` values and its
`textSelect` span text (empty placeholders when absent). -/
def rppCandStrs (doc : Node) : List String :=
  match Crawler.rppBtn? doc with
  | none => []
  | some b =>
    [(b.getAttr "aria-label").getD "", (b.getAttr "title").getD "",
     (match findFirst Crawler.isTextSelectSpan b with
      | none => ""
      | some sp => sp.getTextStrip)]

/-- Ceiling division on naturals: `⌈a / b⌉`. -/
def cdiv (a b : Nat) : Nat :=
  (a + b - 1) / b

/-! ### Helper lemmas -/

theorem is_last_page_eq (p t r : Int) :
    Crawler.is_last_page p t r = (decide (r ≤ 0) || decide (t ≤ (p + 1) * r)) := by
  unfold Crawler.is_last_page
  by_cases h : r ≤ 0 <;> simp [h]

theorem extractGo_succ (snaps : Nat → Node) (total rpp : Int) (acc : List Record)
    (page fuel : Nat) :
    Crawler.extractGo snaps total rpp acc page (fuel + 1) =
      (if Crawler.stepRpp snaps rpp page = 0 then .ok (acc, page)
       else
        match Crawler.rowRecords (Crawler._get_table_rows (snaps page)) with
        | .error e => .error e
        | .ok recs =>
          if Crawler.is_last_page (page : Int) total (Crawler.stepRpp snaps rpp page) then
            .ok (acc ++ recs, page)
          else
            Crawler.extractGo snaps total (Crawler.stepRpp snaps rpp page)
              (acc ++ recs) (page + 1) fuel) := rfl

theorem rowRecord_not_fuelOut (tr : Node) :
    Crawler.rowRecord tr ≠ .error .fuelOut := by
  unfold Crawler.rowRecord
  dsimp only
  split
  · simp
  · split
    · simp
    · split
      · simp
      · simp

theorem rowRecords_not_fuelOut :
    ∀ trs : List Node, Crawler.rowRecords trs ≠ .error .fuelOut
  | [] => by simp [Crawler.rowRecords]
  | tr :: trs => by
    unfold Crawler.rowRecords
    split
    · rename_i e hR
      cases e with
      | indexError => simp
      | fuelOut => exact absurd hR (rowRecord_not_fuelOut tr)
    · split
      · rename_i e hRs
        cases e with
        | indexError => simp
        | fuelOut => exact absurd hRs (rowRecords_not_fuelOut trs)
      · simp

theorem pyInt_nonneg_of_noMinus {s : String} {k : Int}
    (h : pyInt s = some k) (hm : noMinus s = true) : 0 ≤ k := by
  unfold pyInt at h
  unfold noMinus at hm
  cases hcs : trimChars s.toList with
  | nil => rw [hcs] at h; simp [pyIntCore] at h
  | cons c cs =>
    rw [hcs] at h hm
    simp only [List.head?] at hm
    simp only [pyIntCore] at h
    by_cases hplus : c = '+'
    · rw [if_pos hplus] at h
      cases hds : digitRun? cs with
      | none => rw [hds] at h; simp at h
      | some ds =>
        rw [hds] at h; simp at h
        omega
    · rw [if_neg hplus] at h
      have hminus : ¬ c = '-' := by
        intro hc
        subst hc
        simp at hm
      rw [if_neg hminus] at h
      cases hds : digitRun? (c :: cs) with
      | none => rw [hds] at h; simp at h
      | some ds =>
        rw [hds] at h; simp at h
        omega

theorem attrCand_nonneg {b : Node} {a : String} {k : Int}
    (h : Crawler.attrCand b a = some k)
    (hm : noMinus ((b.getAttr a).getD "") = true) : 0 ≤ k := by
  unfold Crawler.attrCand at h
  cases hv : b.getAttr a with
  | none => rw [hv] at h; simp at h
  | some v =>
    rw [hv] at h hm
    simp only [Option.getD] at hm
    dsimp only at h
    by_cases hve : v = ""
    · rw [if_pos hve] at h; simp at h
    · rw [if_neg hve] at h
      exact pyInt_nonneg_of_noMinus h hm

theorem spanCand_nonneg {b : Node} {k : Int}
    (h : Crawler.spanCand b = some k)
    (hm : noMinus (match findFirst Crawler.isTextSelectSpan b with
      | none => ""
      | some sp => sp.getTextStrip) = true) : 0 ≤ k := by
  unfold Crawler.spanCand at h
  cases hsp : findFirst Crawler.isTextSelectSpan b with
  | none => rw [hsp] at h; simp at h
  | some sp =>
    rw [hsp] at h hm
    exact pyInt_nonneg_of_noMinus h hm

theorem cdiv_mul_ge {a b : Nat} (hb : 0 < b) : a ≤ cdiv a b * b := by
  unfold cdiv
  rw [Nat.mul_comm]
  have h1 := Nat.div_add_mod (a + b - 1) b
  have h2 := Nat.mod_lt (a + b - 1) hb
  omega

theorem cdiv_pos {a b : Nat} (ha : 0 < a) (hb : 0 < b) : 0 < cdiv a b := by
  unfold cdiv
  apply Nat.div_pos
  · omega
  · exact hb

theorem le_natAbs_add_two_mul {t r : Int} (hr : 0 < r) :
    t ≤ ((t.natAbs : Int) + 2) * r := by
  have h1 : t ≤ (t.natAbs : Int) := Int.le_natAbs
  have h2 : ((t.natAbs : Int) + 2) * 1 ≤ ((t.natAbs : Int) + 2) * r := by
    apply mul_le_mul_of_nonneg_left
    · omega
    · positivity
  linarith

theorem is_last_page_of_nonpos {p t r : Int} (hr : r ≤ 0) :
    Crawler.is_last_page p t r = true := by
  unfold Crawler.is_last_page
  rw [if_pos hr]

theorem extractGo_no_fuelOut_of_neg (snaps : Nat → Node) (total : Int)
    (rpp : Int) (acc : List Record) (page fuel : Nat)
    (hr : rpp < 0) (hf : 1 ≤ fuel) :
    Crawler.extractGo snaps total rpp acc page fuel ≠ .error .fuelOut := by
  cases fuel with
  | zero => omega
  | succ f =>
    rw [extractGo_succ]
    have hne : ¬ rpp = 0 := by omega
    have hs : Crawler.stepRpp snaps rpp page = rpp := if_neg hne
    rw [hs, if_neg hne]
    cases hR : Crawler.rowRecords (Crawler._get_table_rows (snaps page)) with
    | error e =>
      cases e with
      | indexError => simp
      | fuelOut => exact absurd hR (rowRecords_not_fuelOut _)
    | ok recs =>
      rw [is_last_page_of_nonpos (le_of_lt hr)]
      simp

theorem extractGo_no_fuelOut_of_pos (snaps : Nat → Node) (total : Int) :
    ∀ (fuel : Nat) (rpp : Int) (acc : List Record) (page : Nat),
      0 < rpp → 1 ≤ fuel → total ≤ ((page : Int) + (fuel : Int)) * rpp →
      Crawler.extractGo snaps total rpp acc page fuel ≠ .error .fuelOut := by
  intro fuel
  induction fuel with
  | zero => intro rpp acc page _ hf _; omega
  | succ f ih =>
    intro rpp acc page hrpp _ hbound
    rw [extractGo_succ]
    have hne : ¬ rpp = 0 := by omega
    have hs : Crawler.stepRpp snaps rpp page = rpp := if_neg hne
    rw [hs, if_neg hne]
    cases hR : Crawler.rowRecords (Crawler._get_table_rows (snaps page)) with
    | error e =>
      cases e with
      | indexError => simp
      | fuelOut => exact absurd hR (rowRecords_not_fuelOut _)
    | ok recs =>
      dsimp only
      by_cases hlast : Crawler.is_last_page (page : Int) total rpp = true
      · rw [if_pos hlast]
        simp
      · rw [if_neg hlast]
        rw [is_last_page_eq] at hlast
        simp only [Bool.or_eq_true, decide_eq_true_eq, not_or, not_le] at hlast
        obtain ⟨hr0, hlt⟩ := hlast
        have hf1 : 1 ≤ f := by
          by_contra hc
          have hf0 : f = 0 := by omega
          subst hf0
          have : (((page : Int) + 1)) * rpp < (((page : Int)) + 1) * rpp := by
            calc ((page : Int) + 1) * rpp < total := hlt
              _ ≤ ((page : Int) + (1 : Nat)) * rpp := by exact_mod_cast hbound
              _ = ((page : Int) + 1) * rpp := by norm_num
          exact absurd this (lt_irrefl _)
        apply ih rpp (acc ++ recs) (page + 1) hrpp hf1
        have : ((page + 1 : Nat) : Int) + (f : Int) = (page : Int) + ((f + 1 : Nat) : Int) := by
          push_cast
          ring
        rw [this]
        exact hbound

theorem extractGo_no_fuelOut_of_zero (snaps : Nat → Node) (total : Int)
    (acc : List Record) (page : Nat) :
    ∀ fuel : Nat, total.natAbs + 2 ≤ fuel →
      Crawler.extractGo snaps total 0 acc page fuel ≠ .error .fuelOut := by
  intro fuel hf
  cases fuel with
  | zero => omega
  | succ f =>
    rw [extractGo_succ]
    have hs : Crawler.stepRpp snaps (0 : Int) page =
        ((Crawler._get_table_rows (snaps page)).length : Int) := if_pos rfl
    rw [hs]
    by_cases hL : ((Crawler._get_table_rows (snaps page)).length : Int) = 0
    · rw [if_pos hL]
      simp
    · rw [if_neg hL]
      have hL1 : (1 : Int) ≤ ((Crawler._get_table_rows (snaps page)).length : Int) := by
        omega
      cases hR : Crawler.rowRecords (Crawler._get_table_rows (snaps page)) with
      | error e =>
        cases e with
        | indexError => simp
        | fuelOut => exact absurd hR (rowRecords_not_fuelOut _)
      | ok recs =>
        dsimp only
        by_cases hlast : Crawler.is_last_page (page : Int) total
            ((Crawler._get_table_rows (snaps page)).length : Int) = true
        · rw [if_pos hlast]
          simp
        · rw [if_neg hlast]
          rw [is_last_page_eq] at hlast
          simp only [Bool.or_eq_true, decide_eq_true_eq, not_or, not_le] at hlast
          obtain ⟨hr0, hlt⟩ := hlast
          apply extractGo_no_fuelOut_of_pos snaps total f
            ((Crawler._get_table_rows (snaps page)).length : Int) (acc ++ recs) (page + 1)
            (by omega) (by omega)
          have hX : (total : Int) ≤ ((page + 1 : Nat) : Int) + (f : Int) := by
            have h1 : total ≤ (total.natAbs : Int) := Int.le_natAbs
            push_cast
            omega
          calc total ≤ ((page + 1 : Nat) : Int) + (f : Int) := hX
            _ = (((page + 1 : Nat) : Int) + (f : Int)) * 1 := by ring
            _ ≤ (((page + 1 : Nat) : Int) + (f : Int)) *
                ((Crawler._get_table_rows (snaps page)).length : Int) := by
              apply mul_le_mul_of_nonneg_left hL1
              positivity

theorem extractGo_zero_rpp_eq (snaps : Nat → Node) (total : Int)
    (acc : List Record) (page fuel : Nat) :
    Crawler.extractGo snaps total 0 acc page fuel =
      Crawler.extractGo snaps total ((Crawler._get_table_rows (snaps page)).length : Int)
        acc page fuel := by
  cases fuel with
  | zero => rfl
  | succ f =>
    rw [extractGo_succ, extractGo_succ]
    have hstep : Crawler.stepRpp snaps (0 : Int) page =
        Crawler.stepRpp snaps ((Crawler._get_table_rows (snaps page)).length : Int) page := by
      unfold Crawler.stepRpp
      by_cases hL : ((Crawler._get_table_rows (snaps page)).length : Int) = 0
      · simp [hL]
      · simp [hL]
    rw [hstep]

theorem extractGo_ok_concat (snaps : Nat → Node) (total : Int) :
    ∀ (fuel : Nat) (rpp : Int) (acc recs : List Record) (page p : Nat),
      Crawler.extractGo snaps total rpp acc page fuel = .ok (recs, p) →
      page ≤ p ∧ ∃ ll, pageRecordsSeq snaps page (p + 1 - page) = .ok ll ∧
        recs = acc ++ ll.flatten := by
  intro fuel
  induction fuel with
  | zero =>
    intro rpp acc recs page p h
    simp [Crawler.extractGo] at h
  | succ f ih =>
    intro rpp acc recs page p h
    rw [extractGo_succ] at h
    by_cases h0 : Crawler.stepRpp snaps rpp page = 0
    · rw [if_pos h0] at h
      have hacc : acc = recs ∧ page = p := by
        cases h
        exact ⟨rfl, rfl⟩
      obtain ⟨hacc, hpage⟩ := hacc
      subst hacc
      subst hpage
      have hrows : Crawler._get_table_rows (snaps page) = [] := by
        unfold Crawler.stepRpp at h0
        by_cases hz : rpp = 0
        · rw [if_pos hz] at h0
          have : (Crawler._get_table_rows (snaps page)).length = 0 := by
            exact_mod_cast h0
          exact List.length_eq_zero.mp this
        · rw [if_neg hz] at h0
          exact absurd h0 hz
      refine ⟨le_refl page, [[]], ?_, by simp⟩
      have hcount : page + 1 - page = 1 := by omega
      rw [hcount]
      unfold pageRecordsSeq
      rw [hrows]
      simp [Crawler.rowRecords, pageRecordsSeq]
    · rw [if_neg h0] at h
      cases hR : Crawler.rowRecords (Crawler._get_table_rows (snaps page)) with
      | error e =>
        rw [hR] at h
        simp at h
      | ok l =>
        rw [hR] at h
        dsimp only at h
        by_cases hlast : Crawler.is_last_page (page : Int) total
            (Crawler.stepRpp snaps rpp page) = true
        · rw [if_pos hlast] at h
          have hok : acc ++ l = recs ∧ page = p := by
            cases h
            exact ⟨rfl, rfl⟩
          obtain ⟨hrecs, hpage⟩ := hok
          subst hpage
          refine ⟨le_refl page, [l], ?_, by simp [hrecs.symm]⟩
          have hcount : page + 1 - page = 1 := by omega
          rw [hcount]
          unfold pageRecordsSeq
          rw [hR]
          simp [pageRecordsSeq]
        · rw [if_neg hlast] at h
          obtain ⟨hle, ll', hseq, hrecs⟩ := ih _ _ _ _ _ h
          refine ⟨by omega, l :: ll', ?_, ?_⟩
          · have hcount : p + 1 - page = (p + 1 - (page + 1)) + 1 := by omega
            rw [hcount]
            unfold pageRecordsSeq
            rw [hR, hseq]
          · rw [hrecs]
            simp

/-! ### The claims -/

/-- C1: `is_last_page(page, totalRows, rowsPerPage)` is a pure function
returning true iff `rowsPerPage <= 0` or
`(page + 1) * rowsPerPage >= totalRows`, for all integers; in
particular `is_last_page(0, 25, 25) = true`,
`is_last_page(0, 1067, 25) = false`, `is_last_page(42, 1067, 25) = true`
and `is_last_page(41, 1067, 25) = false`.  (Purity holds by
construction: the embedding is a function of its three arguments
only.) -/
theorem is_last_page_iff :
    (∀ page totalRows rowsPerPage : Int,
      Crawler.is_last_page page totalRows rowsPerPage = true ↔
        rowsPerPage ≤ 0 ∨ (page + 1) * rowsPerPage ≥ totalRows) ∧
    Crawler.is_last_page 0 25 25 = true ∧
    Crawler.is_last_page 0 1067 25 = false ∧
    Crawler.is_last_page 42 1067 25 = true ∧
    Crawler.is_last_page 41 1067 25 = false := by
  refine ⟨fun p t r => ?_, by decide, by decide, by decide, by decide⟩
  rw [is_last_page_eq]
  simp [ge_iff_le]

/-- C5: `_parse_price(s)` removes all commas from `s` and parses the
result as a float, returning `0.0` on any parse failure or empty input;
`"11,520.00"` gives `11520.0`, `"150.25"` gives `150.25`, `""` gives
`0.0`, `"not a number"` gives `0.0`. -/
theorem parse_price_spec :
    (∀ s : String,
      Crawler._parse_price s =
        (pyFloat? (removeCommas s)).getD (PyFloat.finite 0)) ∧
    Crawler._parse_price "11,520.00" = PyFloat.finite 11520 ∧
    Crawler._parse_price "150.25" = PyFloat.finite (150.25 : ℚ) ∧
    Crawler._parse_price "" = PyFloat.finite 0 ∧
    Crawler._parse_price "not a number" = PyFloat.finite 0 := by
  refine ⟨fun s => ?_, ?_, ?_, by decide, by decide⟩
  · unfold Crawler._parse_price
    by_cases h : s = ""
    · subst h
      decide
    · rw [if_neg h]
      cases h2 : pyFloat? (removeCommas s) <;> simp [h2]
  · decide
  · have h1 : Crawler._parse_price "150.25" = PyFloat.finite (mkRat 15025 100) := by
      decide
    rw [h1]
    congr 1
    rw [Rat.mkRat_eq_div]
    norm_num

/-- C3 (code bug witness): a table row with fewer than five cells is not
silently skipped: the unguarded `cells_html[1]`/`[2]`/`[4]` indexing of
`extract`'s row loop raises `IndexError`, aborting the whole extraction
and losing the sibling rows.  (The repository's own test
`test_skips_rows_with_fewer_than_five_cells` asserts the skipping
behaviour, against a `_parse_table_rows` helper that does not exist in
`crawler.py`.) -/
theorem short_row_raises :
    Crawler.rowRecord shortRow = .error .indexError ∧
    Crawler.rowRecords
      [dataRow "0" "AAPL" "Apple Inc" "150.25", shortRow,
       dataRow "2" "GOOG" "Alphabet" "140.50"] = .error .indexError ∧
    Crawler.extract "https://example.com" "Brazil" (fun _ => docShortRow) =
      .error .indexError :=
  ⟨rfl, rfl, rfl⟩

/-- C9 (counterexample): the values feeding PaginationState are not
always nonnegative — a badge reading `"1-25 of -5"` makes
`_get_total_rows` return `-5`, and a page-size button labelled `"-3"`
makes `_get_rows_per_page` return `-3`, because Python `int(...)`
accepts a leading minus sign. -/
theorem pagination_negative_cex :
    Crawler._get_total_rows (badgeOnlyDoc "1-25 of -5") = -5 ∧
    Crawler._get_rows_per_page (btnOnlyDoc "-3") = -3 ∧
    ¬ (0 ≤ Crawler._get_total_rows (badgeOnlyDoc "1-25 of -5") ∧
       0 ≤ Crawler._get_rows_per_page (badgeOnlyDoc "1-25 of -5")) := by
  refine ⟨by decide, by decide, ?_⟩
  intro hc
  exact absurd hc.1 (by decide)

/-- C9 (amended): `_get_total_rows` and `_get_rows_per_page` are
nonnegative on every snapshot whose parsed numeric texts carry no
leading minus sign (in particular on every page whose badge and
page-size texts are plain unsigned numbers); in general each parser
returns `0` or the integer Python `int(...)` reads from the page text,
which can be negative. -/
theorem pagination_nonneg_unsigned :
    ∀ doc : Node,
      (noMinus (Crawler.totalNumStr doc) = true →
        0 ≤ Crawler._get_total_rows doc) ∧
      ((∀ s ∈ rppCandStrs doc, noMinus s = true) →
        0 ≤ Crawler._get_rows_per_page doc) := by
  intro doc
  constructor
  · intro hm
    unfold Crawler.totalNumStr at hm
    unfold Crawler._get_total_rows
    cases hd : findFirst Crawler.isTotalDiv doc with
    | none => simp
    | some d =>
      rw [hd] at hm
      dsimp only at hm ⊢
      by_cases hof : strContains d.getTextStrip " of " = true
      · rw [if_pos hof]
        cases hk : pyInt (pyStrip ((pySplit d.getTextStrip " of ").getLastD "")) with
        | none => simp
        | some k => exact pyInt_nonneg_of_noMinus hk hm
      · rw [if_neg hof]
  · intro hm
    unfold rppCandStrs at hm
    unfold Crawler._get_rows_per_page
    cases hb : Crawler.rppBtn? doc with
    | none => simp
    | some b =>
      rw [hb] at hm
      simp only [List.mem_cons, List.not_mem_nil, or_false, forall_eq_or_imp,
        forall_eq] at hm
      obtain ⟨hm1, hm2, hm3⟩ := hm
      dsimp only
      cases h1 : Crawler.attrCand b "aria-label" with
      | some k => exact attrCand_nonneg h1 hm1
      | none =>
        cases h2 : Crawler.attrCand b "title" with
        | some k => exact attrCand_nonneg h2 hm2
        | none =>
          cases h3 : Crawler.spanCand b with
          | some k => exact spanCand_nonneg h3 hm3
          | none => simp

/-- C9 (witness for the amended claim): concrete unsigned pages — a
badge `"1-25 of 1067"` and a button labelled `"25"` — give nonnegative
values. -/
theorem pagination_nonneg_unsigned_app :
    0 ≤ Crawler._get_total_rows (badgeOnlyDoc "1-25 of 1067") ∧
    0 ≤ Crawler._get_rows_per_page (btnOnlyDoc "25") :=
  ⟨(pagination_nonneg_unsigned (badgeOnlyDoc "1-25 of 1067")).1 (by decide),
   (pagination_nonneg_unsigned (btnOnlyDoc "25")).2 (by decide)⟩

/-- C10: the records produced by the extraction loop do not depend on
the `region` argument (nor on `url`): on a fixed snapshot sequence any
two region strings give identical results.  `region` only drives the
driver-side UI interaction before the loop; the loop body never reads
it. -/
theorem extract_region_independent :
    ∀ (url r1 r2 : String) (snaps : Nat → Node),
      Crawler.extract url r1 snaps = Crawler.extract url r2 snaps :=
  fun _ _ _ _ => rfl

/-- C4: `_get_table_rows` is total (never raises, by construction of the
embedding); when the screener-table container, the table, or the tbody
is absent it returns an empty list, and otherwise it returns the `tr`
descendants of the tbody in document order (`findAll` filters the
document-order descendant list); concretely, a badge-only snapshot
yields no rows and the three-row fixture yields its three rows in
order. -/
theorem get_table_rows_spec :
    (∀ doc : Node,
      (findAll Crawler.isScreenerDiv doc = [] → Crawler._get_table_rows doc = []) ∧
      (∀ d ds, findAll Crawler.isScreenerDiv doc = d :: ds →
        (findFirst Crawler.isBdTable d = none → Crawler._get_table_rows doc = []) ∧
        (∀ t, findFirst Crawler.isBdTable d = some t →
          (findFirst Crawler.isTbody t = none → Crawler._get_table_rows doc = []) ∧
          (∀ tb, findFirst Crawler.isTbody t = some tb →
            Crawler._get_table_rows doc = findAll Crawler.isTr tb)))) ∧
    Crawler._get_table_rows (badgeOnlyDoc "1-25 of 1067") = [] ∧
    Crawler._get_table_rows docSingle =
      [dataRow "0" "A" "Name A" "10.0", dataRow "1" "B" "Name B" "20.0",
       dataRow "2" "C" "Name C" "30.0"] := by
  refine ⟨fun doc => ⟨?_, ?_⟩, rfl, rfl⟩
  · intro h
    unfold Crawler._get_table_rows
    rw [h]
    rfl
  · intro d ds h
    unfold Crawler._get_table_rows
    rw [h]
    dsimp only [List.head?]
    constructor
    · intro ht
      rw [ht]
    · intro t ht
      rw [ht]
      dsimp only
      constructor
      · intro htb
        rw [htb]
      · intro tb htb
        rw [htb]

/-- C4 (witness): the general clauses applied to the concrete badge-only
snapshot, whose container lookup is empty. -/
theorem get_table_rows_spec_app :
    Crawler._get_table_rows (badgeOnlyDoc "no table here") = [] :=
  (get_table_rows_spec.1 (badgeOnlyDoc "no table here")).1 rfl

/-- C6: `_get_total_rows` and `_get_rows_per_page` return 0 on any parse
failure — missing badge div, badge text without `" of "`, non-`int`
final chunk, missing page-size button, or no parsable
`aria-label`/`title`/span text — and are total (never raise, by
construction); a badge `"1-25 of 1067"` gives 1067 and a badge without
`" of "` gives 0. -/
theorem metadata_fail_closed :
    (∀ doc : Node,
      (findFirst Crawler.isTotalDiv doc = none → Crawler._get_total_rows doc = 0) ∧
      (∀ d, findFirst Crawler.isTotalDiv doc = some d →
        (strContains d.getTextStrip " of " = false → Crawler._get_total_rows doc = 0) ∧
        (pyInt (pyStrip ((pySplit d.getTextStrip " of ").getLastD "")) = none →
          Crawler._get_total_rows doc = 0)) ∧
      (Crawler.rppBtn? doc = none → Crawler._get_rows_per_page doc = 0) ∧
      (∀ b, Crawler.rppBtn? doc = some b →
        Crawler.attrCand b "aria-label" = none → Crawler.attrCand b "title" = none →
        Crawler.spanCand b = none → Crawler._get_rows_per_page doc = 0)) ∧
    Crawler._get_total_rows (badgeOnlyDoc "1-25 of 1067") = 1067 ∧
    Crawler._get_total_rows (badgeOnlyDoc "invalid") = 0 := by
  refine ⟨fun doc => ⟨?_, ?_, ?_, ?_⟩, by decide, by decide⟩
  · intro h
    unfold Crawler._get_total_rows
    rw [h]
  · intro d hd
    unfold Crawler._get_total_rows
    rw [hd]
    dsimp only
    constructor
    · intro hof
      rw [if_neg (by simp [hof])]
    · intro hk
      by_cases hof : strContains d.getTextStrip " of " = true
      · rw [if_pos hof, hk]
      · rw [if_neg hof]
  · intro h
    unfold Crawler._get_rows_per_page
    rw [h]
  · intro b hb h1 h2 h3
    unfold Crawler._get_rows_per_page
    rw [hb]
    dsimp only
    rw [h1, h2, h3]

/-- C6 (witness): on the empty snapshot both lookups fail and both
parsers return 0. -/
theorem metadata_fail_closed_app :
    Crawler._get_total_rows emptyDoc = 0 ∧
    Crawler._get_rows_per_page emptyDoc = 0 :=
  ⟨(metadata_fail_closed.1 emptyDoc).1 rfl,
   (metadata_fail_closed.1 emptyDoc).2.2.1 rfl⟩

/-- C2: the extraction loop terminates on every snapshot sequence — the
fuel of the model never runs out (each fuel unit is one fetch
iteration); moreover when the parsed total and page size are positive,
`ceil(totalItems / pageSize)` iterations of fuel already complete the
loop, and when the resolved page size is 0 (parsed size 0 and an empty
first page) one iteration completes it with no records. -/
theorem extract_terminates :
    (∀ (u r : String) (snaps : Nat → Node),
      Crawler.extract u r snaps ≠ .error .fuelOut) ∧
    (∀ (u r : String) (snaps : Nat → Node),
      0 < Crawler._get_total_rows (snaps 0) →
      0 < Crawler._get_rows_per_page (snaps 0) →
      Crawler.extractWith u r snaps
        (cdiv (Crawler._get_total_rows (snaps 0)).toNat
          (Crawler._get_rows_per_page (snaps 0)).toNat) ≠ .error .fuelOut) ∧
    (∀ (u r : String) (snaps : Nat → Node),
      Crawler._get_rows_per_page (snaps 0) = 0 →
      Crawler._get_table_rows (snaps 0) = [] →
      Crawler.extractWith u r snaps 1 = .ok ([], 0)) := by
  refine ⟨?_, ?_, ?_⟩
  · intro u r snaps
    unfold Crawler.extract Crawler.extractWith Crawler.extractFuel
    rcases lt_trichotomy (Crawler._get_rows_per_page (snaps 0)) 0 with h | h | h
    · exact extractGo_no_fuelOut_of_neg snaps _ _ [] 0 _ h (by omega)
    · rw [h]
      exact extractGo_no_fuelOut_of_zero snaps _ [] 0 _ (le_refl _)
    · apply extractGo_no_fuelOut_of_pos snaps _ _ _ [] 0 h (by omega)
      have hb := le_natAbs_add_two_mul (t := Crawler._get_total_rows (snaps 0)) h
      calc Crawler._get_total_rows (snaps 0)
          ≤ (((Crawler._get_total_rows (snaps 0)).natAbs : Int) + 2) *
              Crawler._get_rows_per_page (snaps 0) := hb
        _ = (((0 : Nat) : Int) + (((Crawler._get_total_rows (snaps 0)).natAbs + 2 : Nat) : Int)) *
              Crawler._get_rows_per_page (snaps 0) := by
            push_cast
            ring_nf
  · intro u r snaps ht hr
    unfold Crawler.extractWith
    apply extractGo_no_fuelOut_of_pos snaps _ _ _ [] 0 hr
    · have h1 : 0 < (Crawler._get_total_rows (snaps 0)).toNat := by omega
      have h2 : 0 < (Crawler._get_rows_per_page (snaps 0)).toNat := by omega
      exact cdiv_pos h1 h2
    · have h2 : 0 < (Crawler._get_rows_per_page (snaps 0)).toNat := by omega
      have hc := cdiv_mul_ge (a := (Crawler._get_total_rows (snaps 0)).toNat) h2
      have hcast : ((Crawler._get_total_rows (snaps 0)).toNat : Int) ≤
          ((cdiv (Crawler._get_total_rows (snaps 0)).toNat
            (Crawler._get_rows_per_page (snaps 0)).toNat *
            (Crawler._get_rows_per_page (snaps 0)).toNat : Nat) : Int) := by
        exact_mod_cast hc
      have ht1 : ((Crawler._get_total_rows (snaps 0)).toNat : Int) =
          Crawler._get_total_rows (snaps 0) := Int.toNat_of_nonneg (by omega)
      have hr1 : ((Crawler._get_rows_per_page (snaps 0)).toNat : Int) =
          Crawler._get_rows_per_page (snaps 0) := Int.toNat_of_nonneg (by omega)
      push_cast at hcast
      rw [ht1, hr1] at hcast
      calc Crawler._get_total_rows (snaps 0)
          ≤ (cdiv (Crawler._get_total_rows (snaps 0)).toNat
              (Crawler._get_rows_per_page (snaps 0)).toNat : Int) *
              Crawler._get_rows_per_page (snaps 0) := hcast
        _ = (((0 : Nat) : Int) + (cdiv (Crawler._get_total_rows (snaps 0)).toNat
              (Crawler._get_rows_per_page (snaps 0)).toNat : Int)) *
              Crawler._get_rows_per_page (snaps 0) := by
            push_cast
            ring_nf
  · intro u r snaps h0 hrows
    unfold Crawler.extractWith
    rw [h0]
    rw [show (1 : Nat) = 0 + 1 from rfl, extractGo_succ]
    have hs : Crawler.stepRpp snaps (0 : Int) 0 = 0 := by
      unfold Crawler.stepRpp
      rw [if_pos rfl, hrows]
      rfl
    rw [hs]
    simp

/-- C2 (witness): for the concrete 70-item, 25-per-page snapshots the
parsed metadata is positive and `ceil(70 / 25) = 3` fetch iterations of
fuel complete the loop. -/
theorem extract_terminates_app :
    Crawler.extractWith "https://example.com" "Brazil" snaps70
      (cdiv (Crawler._get_total_rows (snaps70 0)).toNat
        (Crawler._get_rows_per_page (snaps70 0)).toNat) ≠ .error .fuelOut :=
  extract_terminates.2.1 "https://example.com" "Brazil" snaps70 (by decide) (by decide)

/-- C7: whenever `extract` returns a result, that result is the
concatenation — in page order, then row order within each page, with no
deduplication — of the per-page record lists parsed from the visited
snapshots (`p` is the final page counter, so `p + 1` fetch cycles
occurred); for the 3 snapshots of a 70-item, 25-per-page listing,
exactly 3 fetch cycles occur (final page counter 2) and the 70 records
come back in page-then-row order. -/
theorem extract_concat_pages :
    (∀ (u r : String) (snaps : Nat → Node) (recs : List Record) (p : Nat),
      Crawler.extract u r snaps = .ok (recs, p) →
      ∃ ll, pageRecordsSeq snaps 0 (p + 1) = .ok ll ∧ recs = ll.flatten) ∧
    Crawler.extract "https://example.com" "Brazil" snaps70 = .ok (records70, 2) ∧
    records70.length = 70 := by
  refine ⟨?_, ?_, rfl⟩
  · intro u r snaps recs p h
    obtain ⟨hle, ll, hseq, hrecs⟩ := extractGo_ok_concat snaps _ _ _ _ _ _ _ h
    refine ⟨ll, ?_, by simpa using hrecs⟩
    have hc : p + 1 - 0 = p + 1 := by omega
    rw [hc] at hseq
    exact hseq
  · rfl

/-- C7 (witness): the concatenation clause applied at the concrete
70-item run — the returned records are the flattening of the three
per-page record lists. -/
theorem extract_concat_pages_app :
    ∃ ll, pageRecordsSeq snaps70 0 3 = .ok ll ∧ records70 = ll.flatten :=
  extract_concat_pages.1 "https://example.com" "Brazil" snaps70 records70 2
    extract_concat_pages.2.1

/-- C8: when the page size parsed from the first snapshot is 0, the loop
runs as if entered with the row count of that snapshot as page size (so
the last-page decision uses it); if that count is also 0, the loop ends
after the first iteration with no records and a final page counter of 0
— `click_next_page` is called once per counter increment, so no further
snapshot is requested. -/
theorem page_size_fallback :
    (∀ (u r : String) (snaps : Nat → Node),
      Crawler._get_rows_per_page (snaps 0) = 0 →
      Crawler.extract u r snaps =
        Crawler.extractGo snaps (Crawler._get_total_rows (snaps 0))
          ((Crawler._get_table_rows (snaps 0)).length : Int) [] 0
          (Crawler.extractFuel snaps)) ∧
    (∀ (u r : String) (snaps : Nat → Node),
      Crawler._get_rows_per_page (snaps 0) = 0 →
      Crawler._get_table_rows (snaps 0) = [] →
      Crawler.extract u r snaps = .ok ([], 0)) := by
  constructor
  · intro u r snaps h0
    unfold Crawler.extract Crawler.extractWith
    rw [h0]
    exact extractGo_zero_rpp_eq snaps _ [] 0 _
  · intro u r snaps h0 hrows
    unfold Crawler.extract Crawler.extractWith Crawler.extractFuel
    rw [h0]
    rw [show (Crawler._get_total_rows (snaps 0)).natAbs + 2 =
      ((Crawler._get_total_rows (snaps 0)).natAbs + 1) + 1 from rfl]
    rw [extractGo_succ]
    have hs : Crawler.stepRpp snaps (0 : Int) 0 = 0 := by
      unfold Crawler.stepRpp
      rw [if_pos rfl, hrows]
      rfl
    rw [hs]
    simp

/-- C8 (witness): on an all-empty snapshot the parsed page size is 0,
the first page has no rows, and `extract` stops at once with no records
and page counter 0. -/
theorem page_size_fallback_app :
    Crawler.extract "https://example.com" "Brazil" (fun _ => emptyDoc) = .ok ([], 0) :=
  page_size_fallback.2 "https://example.com" "Brazil" (fun _ => emptyDoc) (by decide) rfl
